import Mathlib

/-!
Shallow embedding of the Cognito CSV exporter (`src/main.rs`) and proofs of
its specification claims.

The embedded functions mirror, line for line, the Rust functions
`extract_username_and_email`, `sync_users_to_csv` and `run_sync`.  The remote
`ListUsers` call is modelled as a function from the request index to a
response; the asynchronous sink (`Box<dyn AsyncWrite>`) is modelled as an
abstract fallible writer; real time in the `tokio::time::timeout` wrapper is
modelled by a Boolean oracle saying whether the deadline elapsed first.
-/

namespace CogOps

/-- Model of `aws_sdk_cognitoidentityprovider::types::AttributeType`:
a name together with an optional value (the SDK's `value()` returns
`Option<&str>`). -/
structure AttributeType where
  name : String
  value : Option String
deriving DecidableEq

/-- Model of `aws_sdk_cognitoidentityprovider::types::UserType`: the optional
`username()` and the attribute list returned by `attributes()` (the SDK
flattens an absent list to an empty slice). -/
structure UserType where
  username : Option String
  attributes : List AttributeType
deriving DecidableEq

/-- Model of one `ListUsers` response: the page's user records and the
optional `pagination_token()` of the response. -/
structure Page where
  users : List UserType
  paginationToken : Option String
deriving DecidableEq

/-- The observable content of one `ListUsers` request built by the loop body:
`client.list_users().user_pool_id(&args.pool_id).limit(60)` plus
`.pagination_token(token)` when a token is held. -/
structure ListUsersRequest where
  userPoolId : String
  limit : Nat
  paginationToken : Option String
deriving DecidableEq

/-- Error kinds of `sync_users_to_csv`, one per `.context(...)` site in the
source (file creation, header write, `ListUsers` call, row write, flush);
each wraps the underlying cause. -/
inductive SyncError where
  | createFile (path : String) (cause : String)
  | writeHeader (cause : String)
  | listUsers (cause : String)
  | writeRow (cause : String)
  | flushFailed (cause : String)
deriving DecidableEq

/-- Error kinds of `run_sync`: either a propagated `sync_users_to_csv` error
or the distinct timeout error `"sync operation timed out after {:?}"`, which
carries the configured duration (in seconds, from
`Duration::from_secs(args.timeout)`). -/
inductive RunError where
  | sync (e : SyncError)
  | timedOut (secs : Nat)
deriving DecidableEq

/-- Model of `extract_username_and_email` (src/main.rs:401-413):
`user.username().unwrap_or_default()` and the value of the first attribute
whose name is `"email"` (`find` + `and_then(value)` + `unwrap_or_default`). -/
def extract_username_and_email (user : UserType) : String × String :=
  let username := user.username.getD ""
  let email :=
    ((user.attributes.find? (fun attr => attr.name = "email")).bind
      (fun attr => attr.value)).getD ""
  (username, email)

/-- The CSV row built for one user: `format!("{username},{email}\n")`
(src/main.rs:376), written verbatim with no quoting or escaping. -/
def rowLine (u : UserType) : String :=
  (extract_username_and_email u).1 ++ "," ++ (extract_username_and_email u).2 ++ "\n"

/-- Abstract model of the sink (`Box<dyn AsyncWrite + Unpin + Send>`): a
state type with fallible `write_all` and `flush` operations. -/
structure Writer (σ : Type) where
  writeAll : σ → String → Except String σ
  flush : σ → Except String σ

/-- The in-memory sink: an infallible writer that accumulates everything
written into one string. -/
def StringBuffer : Writer String :=
  ⟨fun s b => .ok (s ++ b), fun s => .ok s⟩

/-- Observable events of a run, used to state ordering properties: the header
write, each page request issued, each CSV row written, and the final flush. -/
inductive Event where
  | writeHeader
  | fetchPage (req : ListUsersRequest)
  | writeRow (line : String)
  | flush
deriving DecidableEq

/-- The page requests recorded in a trace, in order of issue. -/
def requestsOf (tr : List Event) : List ListUsersRequest :=
  tr.filterMap (fun e => match e with
    | .fetchPage r => some r
    | _ => none)

/-- The CSV rows recorded in a trace, in order of writing. -/
def rowsOf (tr : List Event) : List String :=
  tr.filterMap (fun e => match e with
    | .writeRow l => some l
    | _ => none)

/-- The flush events recorded in a trace. -/
def flushesOf (tr : List Event) : List Event :=
  tr.filterMap (fun e => match e with
    | .flush => some Event.flush
    | _ => none)

/-- Discriminator for the timeout failure kind, used to state that it is
distinct from every propagated `sync_users_to_csv` failure kind. -/
def isTimeout : RunError → Bool
  | .timedOut _ => true
  | .sync _ => false

/-- Whether a `run_sync` outcome reports the timeout failure. -/
def reportsTimeout : Except RunError Unit → Bool
  | .error e => isTimeout e
  | .ok _ => false

/-- Model of the inner `for user in response.users()` loop
(src/main.rs:372-383): extract the fields, write
`format!("{username},{email}\n")`, and increment `total_users`; a failed
write aborts with its cause. -/
def writeUsers {σ : Type} (W : Writer σ) :
    List UserType → σ → Nat → List Event × Except String (σ × Nat)
  | [], s, total => ([], .ok (s, total))
  | u :: rest, s, total =>
    match W.writeAll s (rowLine u) with
    | .error e => ([], .error e)
    | .ok s' =>
      let r := writeUsers W rest s' (total + 1)
      (Event.writeRow (rowLine u) :: r.1, r.2)

/-- Model of the pagination `loop` of `sync_users_to_csv`
(src/main.rs:356-392), with explicit fuel: build the request with the pool
id, `limit(60)` and the held pagination token; send it (`client k` is the
remote's answer to the k-th request, shifted on recursion); abort on a failed
call or row write; otherwise replace the token with the response's
`pagination_token()` and break when it is absent.  `none` means the fuel ran
out before the loop finished. -/
def syncLoop {σ : Type} (W : Writer σ) (poolId : String) :
    (Nat → Except String Page) → Option String → Nat → σ → Nat →
    List Event × Option (Except SyncError (σ × Nat))
  | _, _, _, _, 0 => ([], none)
  | client, token, total, s, fuel + 1 =>
    let req : ListUsersRequest := ⟨poolId, 60, token⟩
    match client 0 with
    | .error e => ([Event.fetchPage req], some (.error (.listUsers e)))
    | .ok page =>
      match writeUsers W page.users s total with
      | (evs, .error e) =>
        (Event.fetchPage req :: evs, some (.error (.writeRow e)))
      | (evs, .ok (s', total')) =>
        match page.paginationToken with
        | none => (Event.fetchPage req :: evs, some (.ok (s', total')))
        | some t =>
          let r := syncLoop W poolId (fun i => client (i + 1)) (some t) total' s' fuel
          (Event.fetchPage req :: evs ++ r.1, r.2)

/-- Model of `sync_users_to_csv` (src/main.rs:337-398) given an already
created sink state `s0`: write the CSV header `"username,email\n"`, run the
pagination loop, and flush after the loop terminates.  The `.ok` payload
keeps the final sink state and the local `total_users` counter (the value
the source logs via `info!`); the Rust function itself returns `Ok(())`,
see `sync_users_to_csv_ret`. -/
def sync_users_to_csv {σ : Type} (W : Writer σ) (s0 : σ)
    (client : Nat → Except String Page) (poolId : String) (fuel : Nat) :
    List Event × Option (Except SyncError (σ × Nat)) :=
  match W.writeAll s0 "username,email\n" with
  | .error e => ([], some (.error (.writeHeader e)))
  | .ok s1 =>
    let r := syncLoop W poolId client none 0 s1 fuel
    match r.2 with
    | none => (Event.writeHeader :: r.1, none)
    | some (.error e) => (Event.writeHeader :: r.1, some (.error e))
    | some (.ok (s2, total)) =>
      match W.flush s2 with
      | .error e => (Event.writeHeader :: r.1, some (.error (.flushFailed e)))
      | .ok s3 => (Event.writeHeader :: r.1 ++ [Event.flush], some (.ok (s3, total)))

/-- The value `sync_users_to_csv` actually returns to its caller:
`Result<()>`, i.e. the counter is dropped and success carries unit
(src/main.rs:397 `Ok(())`). -/
def sync_users_to_csv_ret {σ : Type} (W : Writer σ) (s0 : σ)
    (client : Nat → Except String Page) (poolId : String) (fuel : Nat) :
    Option (Except SyncError Unit) :=
  (sync_users_to_csv W s0 client poolId fuel).2.map (Except.map (fun _ => ()))

/-- Model of `run_sync` (src/main.rs:262-295): when `args.timeout` is set the
sync future runs under `tokio::time::timeout(duration, ..)`; `deadlineElapses`
says whether that deadline fired before the future completed (real time is
outside the embedding).  On elapse the run is abandoned with the timeout
error carrying the configured duration; otherwise, and when no timeout is
configured, the sync result is propagated. -/
def run_sync (timeoutSecs : Option Nat) (deadlineElapses : Bool)
    (syncResult : Except SyncError Unit) : Except RunError Unit :=
  match timeoutSecs with
  | some secs =>
    if deadlineElapses then .error (.timedOut secs)
    else syncResult.mapError RunError.sync
  | none => syncResult.mapError RunError.sync

/-- A paginated remote source serving a fixed pool content: the k-th request
is answered with the next chunk of at most 60 users, and the response's
cursor is present exactly while users remain (so the last page's cursor is
absent). -/
def clientOfPool (pool : List UserType) (k : Nat) : Except String Page :=
  .ok ⟨(pool.drop (60 * k)).take 60,
       if (pool.drop (60 * (k + 1))).isEmpty then none else some "next"⟩

/-- Concatenation of a list of already newline-terminated lines. -/
def concatLines : List String → String
  | [] => ""
  | l :: rest => l ++ concatLines rest

/-- The full CSV output for a pool content: the header line followed by one
row per user. -/
def outOf (pool : List UserType) : String :=
  "username,email\n" ++ concatLines (pool.map rowLine)

/-- Spec-side description of the first CSV field: "the record's username
(the empty string when the username is absent)". -/
def specUsername (u : UserType) : String :=
  match u.username with
  | none => ""
  | some s => s

/-- Spec-side description of the second CSV field: "the value of the
attribute named `email` (the empty string when that attribute is absent or
the attributes list lacks it)", taking the first such attribute in list
order. -/
def specEmail (u : UserType) : String :=
  match u.attributes.find? (fun attr => attr.name = "email") with
  | none => ""
  | some a => a.value.getD ""

/-- Number of LF-terminated lines of an output string (every emitted line,
header and rows alike, ends in `\n` and the source writes no other bytes). -/
def lineCount (s : String) : Nat :=
  s.data.count '\n'

/-- A filesystem modelled as an association list from paths to file
contents; lookups take the most recent binding. -/
def FS : Type := List (String × String)

/-- Model of `tokio::fs::File::create` (src/main.rs:339): create the file
at `path` if it does not exist, truncate it to empty if it does. -/
def fsCreate (fs : FS) (path : String) : FS :=
  (path, "") :: fs

/-- The sink variant backed by the file handle created at `path`: writes
append to the content stored at that path, flush is a no-op on the stored
content. -/
def FileWriter (path : String) : Writer FS :=
  ⟨fun fs b => .ok ((path, ((fs.lookup path).getD "") ++ b) :: fs),
   fun fs => .ok fs⟩

/-- Model of `sync_users_to_csv` when `args.emails_file` is set
(src/main.rs:338-345): truncate-or-create the file at `path`, run the
export into it, and return the resulting filesystem on success. -/
def runSyncToFile (fs : FS) (path : String)
    (client : Nat → Except String Page) (poolId : String) (fuel : Nat) :
    Option (Except SyncError FS) :=
  (sync_users_to_csv (FileWriter path) (fsCreate fs path) client poolId fuel).2.map
    (Except.map Prod.fst)

/-- A writer together with a content abstraction under which `write_all`
appends and `flush` preserves the content; both the in-memory buffer and the
file-backed sink satisfy it. -/
structure AppendWriter {σ : Type} (W : Writer σ) (content : σ → String) : Prop where
  write_ok : ∀ s b, ∃ s', W.writeAll s b = .ok s' ∧ content s' = content s ++ b
  flush_ok : ∀ s, ∃ s', W.flush s = .ok s' ∧ content s' = content s

/-- A sample user with a username and an email attribute. -/
def sampleUser : UserType :=
  ⟨some "alice", [⟨"email", some "alice@example.com"⟩]⟩

/-- The mocked remote source of the pagination scenario: pages of sizes
[60, 60, 7] with next-cursors [tok1, tok2, absent]; any further request
fails. -/
def mockClient : Nat → Except String Page
  | 0 => .ok ⟨List.replicate 60 sampleUser, some "tok1"⟩
  | 1 => .ok ⟨List.replicate 60 sampleUser, some "tok2"⟩
  | 2 => .ok ⟨List.replicate 7 sampleUser, none⟩
  | _ => .error "unexpected request"

/-- A remote source whose first page succeeds with a continuation cursor and
whose second request fails. -/
def failClient : Nat → Except String Page
  | 0 => .ok ⟨[sampleUser], some "t"⟩
  | _ => .error "boom"

/-- The page served by `failClient` before the failure. -/
def failPages : Nat → Page :=
  fun _ => ⟨[sampleUser], some "t"⟩

/-- A remote source serving two pages of one user each; the second response
carries no cursor. -/
def twoPageClient : Nat → Except String Page
  | 0 => .ok ⟨[sampleUser], some "t1"⟩
  | _ => .ok ⟨[sampleUser], none⟩

/-- The pages served by `twoPageClient`. -/
def twoPages : Nat → Page :=
  fun i => if i = 0 then ⟨[sampleUser], some "t1"⟩ else ⟨[sampleUser], none⟩

/-! ## Basic lemmas about the writers and the row loop -/

theorem stringBuffer_append : AppendWriter StringBuffer id :=
  ⟨fun s b => ⟨s ++ b, rfl, rfl⟩, fun s => ⟨s, rfl, rfl⟩⟩

theorem fileWriter_append (path : String) :
    AppendWriter (FileWriter path) (fun fs => (fs.lookup path).getD "") := by
  constructor
  · intro fs b
    refine ⟨(path, ((fs.lookup path).getD "") ++ b) :: fs, rfl, ?_⟩
    simp [List.lookup]
  · intro fs
    exact ⟨fs, rfl, rfl⟩

theorem concatLines_append (a b : List String) :
    concatLines (a ++ b) = concatLines a ++ concatLines b := by
  induction a with
  | nil => simp [concatLines]
  | cons l rest ih => simp [concatLines, ih, String.append_assoc]

/-- Under an append-like writer, the inner row loop always succeeds, emits
one `writeRow` event per user, appends exactly the users' rows to the sink
content, and advances the counter by the page size. -/
theorem writeUsers_append {σ : Type} (W : Writer σ) (content : σ → String)
    (A : AppendWriter W content) :
    ∀ (us : List UserType) (s : σ) (total : Nat),
    ∃ s', writeUsers W us s total =
        (us.map (fun u => Event.writeRow (rowLine u)), .ok (s', total + us.length)) ∧
      content s' = content s ++ concatLines (us.map rowLine) := by
  intro us
  induction us with
  | nil =>
    intro s total
    exact ⟨s, by simp [writeUsers], by simp [concatLines]⟩
  | cons u rest ih =>
    intro s total
    obtain ⟨s1, hw, hc1⟩ := A.write_ok s (rowLine u)
    obtain ⟨s2, hrest, hc2⟩ := ih s1 (total + 1)
    refine ⟨s2, ?_, ?_⟩
    · simp [writeUsers, hw, hrest, Nat.add_assoc, Nat.add_comm 1 rest.length]
    · rw [hc2, hc1]
      simp [concatLines, String.append_assoc]

/-- Whatever the writer does, the inner row loop only ever emits `writeRow`
events. -/
theorem writeUsers_events {σ : Type} (W : Writer σ) :
    ∀ (us : List UserType) (s : σ) (total : Nat),
    ∀ e ∈ (writeUsers W us s total).1, ∃ l, e = Event.writeRow l := by
  intro us
  induction us with
  | nil => intro s total e he; simp [writeUsers] at he
  | cons u rest ih =>
    intro s total e he
    simp only [writeUsers] at he
    cases hw : W.writeAll s (rowLine u) with
    | error msg => rw [hw] at he; simp at he
    | ok s' =>
      rw [hw] at he
      simp only [List.mem_cons] at he
      rcases he with h | h
      · exact ⟨rowLine u, h⟩
      · exact ih s' (total + 1) e h

theorem requestsOf_writeUsers {σ : Type} (W : Writer σ)
    (us : List UserType) (s : σ) (total : Nat) :
    requestsOf (writeUsers W us s total).1 = [] := by
  refine List.filterMap_eq_nil_iff.mpr ?_
  intro e he
  obtain ⟨l, rfl⟩ := writeUsers_events W us s total e he
  rfl

theorem flush_not_in_writeUsers {σ : Type} (W : Writer σ)
    (us : List UserType) (s : σ) (total : Nat) :
    Event.flush ∉ (writeUsers W us s total).1 := by
  intro h
  obtain ⟨l, hl⟩ := writeUsers_events W us s total Event.flush h
  cases hl

/-! ## The paginated loop over a fixed pool content -/

/-- Shifting the pool-backed client by one request serves the pool with its
first chunk removed. -/
theorem clientOfPool_shift (pool : List UserType) :
    (fun i => clientOfPool pool (i + 1)) = clientOfPool (pool.drop 60) := by
  funext i
  simp only [clientOfPool, List.drop_drop]
  have h1 : 60 * (i + 1) = 60 + 60 * i := by ring
  have h2 : 60 * (i + 1 + 1) = 60 + (60 + 60 * i) := by ring
  rw [h1, h2]

/-- Master lemma: under an append-like writer, running the pagination loop
against the pool-backed client with enough fuel succeeds, adds the pool size
to the counter, and appends exactly one row per pool user to the sink. -/
theorem syncLoop_pool {σ : Type} (W : Writer σ) (content : σ → String)
    (A : AppendWriter W content) (pid : String) :
    ∀ (fuel : Nat) (pool : List UserType) (token : Option String) (total : Nat) (s : σ),
    pool.length + 1 ≤ fuel →
    ∃ s', (syncLoop W pid (clientOfPool pool) token total s fuel).2 =
        some (.ok (s', total + pool.length)) ∧
      content s' = content s ++ concatLines (pool.map rowLine) := by
  intro fuel
  induction fuel with
  | zero => intro pool token total s h; omega
  | succ f ih =>
    intro pool token total s _h
    have hcl : clientOfPool pool 0 =
        .ok ⟨pool.take 60, if (pool.drop 60).isEmpty then none else some "next"⟩ := by
      simp [clientOfPool]
    obtain ⟨s1, hw, hc1⟩ := writeUsers_append W content A (pool.take 60) s total
    by_cases hd : (pool.drop 60).isEmpty
    · have hlen : pool.length ≤ 60 := by
        rw [List.isEmpty_iff] at hd
        exact List.drop_eq_nil_iff.mp hd
      have htake : pool.take 60 = pool := List.take_of_length_le hlen
      refine ⟨s1, ?_, ?_⟩
      · simp only [syncLoop, hcl, hw, hd, if_pos]
        rw [htake]
      · rw [hc1, htake]
    · have hlen : 60 < pool.length := by
        rw [List.isEmpty_iff] at hd
        by_contra hle
        exact hd (List.drop_eq_nil_iff.mpr (by omega))
      have htakelen : (pool.take 60).length = 60 := by
        simp [List.length_take]; omega
      obtain ⟨s2, hres, hc2⟩ :=
        ih (pool.drop 60) (some "next") (total + (pool.take 60).length) s1
          (by simp [List.length_drop]; omega)
      refine ⟨s2, ?_, ?_⟩
      · simp only [syncLoop, hcl, hw, hd, if_neg, Bool.false_eq_true, not_false_iff]
        rw [clientOfPool_shift, hres]
        have : total + (pool.take 60).length + (pool.drop 60).length =
            total + pool.length := by
          simp [htakelen, List.length_drop]; omega
        rw [this]
      · rw [hc2, hc1, String.append_assoc]
        rw [← concatLines_append, ← List.map_append, List.take_append_drop]

/-- Running the whole export against a pool-backed source with enough fuel
succeeds, the counter ends at the pool size, and the sink content grows by
exactly the header plus one row per user. -/
theorem sync_pool {σ : Type} (W : Writer σ) (content : σ → String)
    (A : AppendWriter W content) (pid : String) (pool : List UserType)
    (s0 : σ) (fuel : Nat) (hfuel : pool.length + 1 ≤ fuel) :
    ∃ s', (sync_users_to_csv W s0 (clientOfPool pool) pid fuel).2 =
        some (.ok (s', pool.length)) ∧
      content s' = content s0 ++ outOf pool := by
  obtain ⟨s1, hw, hc1⟩ := A.write_ok s0 "username,email\n"
  obtain ⟨s2, hres, hc2⟩ := syncLoop_pool W content A pid fuel pool none 0 s1 hfuel
  obtain ⟨s3, hf, hc3⟩ := A.flush_ok s2
  refine ⟨s3, ?_, ?_⟩
  · simp only [sync_users_to_csv, hw, hres, hf, Nat.zero_add]
  · rw [hc3, hc2, hc1, outOf, String.append_assoc]

/-! ## Line counting -/

theorem lineCount_append (a b : String) :
    lineCount (a ++ b) = lineCount a + lineCount b := by
  simp [lineCount, String.data_append, List.count_append]

theorem lineCount_concatLines (ls : List String) :
    lineCount (concatLines ls) = (ls.map lineCount).sum := by
  induction ls with
  | nil => simp [concatLines, lineCount]
  | cons l rest ih => simp [concatLines, lineCount_append, ih]

theorem lineCount_rowLine (u : UserType)
    (h1 : '\n' ∉ ((extract_username_and_email u).1).data)
    (h2 : '\n' ∉ ((extract_username_and_email u).2).data) :
    lineCount (rowLine u) = 1 := by
  have c1 : lineCount (extract_username_and_email u).1 = 0 := by
    simp [lineCount, List.count_eq_zero]; exact h1
  have c2 : lineCount (extract_username_and_email u).2 = 0 := by
    simp [lineCount, List.count_eq_zero]; exact h2
  simp [rowLine, lineCount_append, c1, c2]
  rfl

theorem lineCount_outOf (pool : List UserType)
    (hnl : ∀ u ∈ pool, '\n' ∉ ((extract_username_and_email u).1).data ∧
      '\n' ∉ ((extract_username_and_email u).2).data) :
    lineCount (outOf pool) = pool.length + 1 := by
  have hrows : (pool.map rowLine).map lineCount = pool.map (fun _ => 1) := by
    rw [List.map_map]
    refine List.map_congr_left ?_
    intro u hu
    exact lineCount_rowLine u (hnl u hu).1 (hnl u hu).2
  rw [outOf, lineCount_append, lineCount_concatLines, hrows]
  simp [lineCount]
  omega

/-! ## Claim C1 -/

/-- C1 (amended): a successful export over a pool of size N produces the
header line followed by the N data rows — exactly N+1 LF-terminated lines
when the field values contain no newline — and the exporter's internal row
counter (the value it logs) equals N; the operation returns unit to its
caller, not the count.  An empty pool yields only the header line. -/
theorem sync_output_lines (pid : String) (pool : List UserType) (fuel : Nat)
    (hfuel : pool.length + 1 ≤ fuel)
    (hnl : ∀ u ∈ pool, '\n' ∉ ((extract_username_and_email u).1).data ∧
      '\n' ∉ ((extract_username_and_email u).2).data) :
    (sync_users_to_csv StringBuffer "" (clientOfPool pool) pid fuel).2 =
        some (.ok (outOf pool, pool.length)) ∧
    lineCount (outOf pool) = pool.length + 1 ∧
    sync_users_to_csv_ret StringBuffer "" (clientOfPool pool) pid fuel =
        some (.ok ()) ∧
    outOf [] = "username,email\n" := by
  obtain ⟨buf, hres, hcontent⟩ :=
    sync_pool StringBuffer id stringBuffer_append pid pool "" fuel hfuel
  have hbuf : buf = outOf pool := hcontent
  refine ⟨hbuf ▸ hres, lineCount_outOf pool hnl, ?_, rfl⟩
  rw [sync_users_to_csv_ret, hres]
  rfl

/-- Witness for C1 at the concrete pool `[sampleUser]` (N = 1). -/
theorem sync_output_lines_witness :
    ((([sampleUser] : List UserType).length + 1 ≤ 2) ∧
      (∀ u ∈ [sampleUser], '\n' ∉ ((extract_username_and_email u).1).data ∧
        '\n' ∉ ((extract_username_and_email u).2).data)) ∧
    ((sync_users_to_csv StringBuffer "" (clientOfPool [sampleUser]) "pool" 2).2 =
        some (.ok (outOf [sampleUser], 1)) ∧
      lineCount (outOf [sampleUser]) = 2 ∧
      sync_users_to_csv_ret StringBuffer "" (clientOfPool [sampleUser]) "pool" 2 =
        some (.ok ()) ∧
      outOf [] = "username,email\n") :=
  ⟨⟨by decide, by decide⟩,
    sync_output_lines "pool" [sampleUser] 2 (by decide) (by decide)⟩

/-- C1 counterexample to the claim as stated: `sync_users_to_csv` returns
`Ok(())`, not the row count — the value returned for a pool of size 1 is
identical to the value returned for the empty pool, although the internal
counters (1 and 0) differ, so the return value cannot be the count. -/
theorem sync_ret_carries_no_count :
    sync_users_to_csv_ret StringBuffer "" (clientOfPool [sampleUser]) "pool" 2 =
      sync_users_to_csv_ret StringBuffer "" (clientOfPool []) "pool" 1 ∧
    (sync_users_to_csv StringBuffer "" (clientOfPool [sampleUser]) "pool" 2).2 =
      some (.ok ("username,email\nalice,alice@example.com\n", 1)) ∧
    (sync_users_to_csv StringBuffer "" (clientOfPool []) "pool" 1).2 =
      some (.ok ("username,email\n", 0)) := by
  refine ⟨rfl, rfl, rfl⟩

/-! ## Claim C2 -/

set_option maxRecDepth 16384 in
/-- C2: against the mocked source with pages of sizes [60, 60, 7] and
next-cursors [tok1, tok2, absent], the export issues exactly the 3 requests
with cursor arguments [absent, tok1, tok2] in that order (each request's
cursor is the previous response's next-cursor), stops after the response
with the absent cursor, and counts 127 rows. -/
theorem mock_pagination :
    requestsOf (sync_users_to_csv StringBuffer "" mockClient "pool" 3).1 =
      [⟨"pool", 60, none⟩, ⟨"pool", 60, some "tok1"⟩, ⟨"pool", 60, some "tok2"⟩] ∧
    (sync_users_to_csv StringBuffer "" mockClient "pool" 3).2.map
        (Except.map Prod.snd) = some (.ok 127) :=
  ⟨rfl, rfl⟩

/-! ## Claim C3 -/

/-- C3: the row emitted for every user record is exactly the username (empty
when absent), a comma, the value of the first attribute named `email` (empty
when absent or missing), and a newline — and the row loop writes these rows
verbatim, appending them unchanged to the sink. -/
theorem row_format :
    (∀ u : UserType, rowLine u = specUsername u ++ "," ++ specEmail u ++ "\n") ∧
    (∀ (us : List UserType) (s : String) (total : Nat),
      writeUsers StringBuffer us s total =
        (us.map (fun u => Event.writeRow (rowLine u)),
         .ok (s ++ concatLines (us.map rowLine), total + us.length))) := by
  constructor
  · intro u
    have h1 : specUsername u = (extract_username_and_email u).1 := by
      cases hu : u.username <;>
        simp [specUsername, extract_username_and_email, hu]
    have h2 : specEmail u = (extract_username_and_email u).2 := by
      cases h : u.attributes.find? (fun attr => attr.name = "email") with
      | none => simp [specEmail, extract_username_and_email, h]
      | some a => simp [specEmail, extract_username_and_email, h]
    rw [rowLine, h1, h2]
  · intro us s total
    obtain ⟨s', hw, hc⟩ :=
      writeUsers_append StringBuffer id stringBuffer_append us s total
    have hs : s' = s ++ concatLines (us.map rowLine) := hc
    rw [hw, hs]

/-! ## Claim C10 -/

theorem find?_first {α : Type} (p : α → Bool) :
    ∀ (pre : List α) (a : α) (post : List α), p a = true →
    (∀ b ∈ pre, p b = false) → (pre ++ a :: post).find? p = some a := by
  intro pre
  induction pre with
  | nil => intro a post ha _; exact List.find?_cons_of_pos _ ha
  | cons b rest ih =>
    intro a post ha hpre
    rw [List.cons_append, List.find?_cons_of_neg]
    · exact ih a post ha (fun c hc => hpre c (List.mem_cons_of_mem b hc))
    · simp [hpre b (List.mem_cons_self b rest)]

/-- C10: when the attributes list contains several attributes named `email`,
the emitted email field is the value of the first one in list order;
attributes after that first match and attributes with other names do not
affect the result. -/
theorem email_first_match (u : UserType) (pre post : List AttributeType)
    (a : AttributeType) (hsplit : u.attributes = pre ++ a :: post)
    (ha : a.name = "email") (hpre : ∀ b ∈ pre, b.name ≠ "email") :
    (extract_username_and_email u).2 = a.value.getD "" := by
  have hfind : u.attributes.find? (fun attr => attr.name = "email") = some a := by
    rw [hsplit]
    exact find?_first _ pre a post (by simp [ha]) (fun b hb => by simp [hpre b hb])
  simp [extract_username_and_email, hfind]

/-- Witness for C10: a record with a `name` attribute followed by two
`email` attributes — the emitted email field is the first match's value. -/
theorem email_first_match_witness :
    ((⟨some "bob",
        [⟨"nick", some "b"⟩, ⟨"email", some "first@x"⟩, ⟨"email", some "second@x"⟩]⟩ :
        UserType).attributes =
        [⟨"nick", some "b"⟩] ++ (⟨"email", some "first@x"⟩ : AttributeType) ::
          [⟨"email", some "second@x"⟩] ∧
      (⟨"email", some "first@x"⟩ : AttributeType).name = "email" ∧
      (∀ b ∈ [(⟨"nick", some "b"⟩ : AttributeType)], b.name ≠ "email")) ∧
    (extract_username_and_email
        ⟨some "bob",
          [⟨"nick", some "b"⟩, ⟨"email", some "first@x"⟩,
           ⟨"email", some "second@x"⟩]⟩).2 = "first@x" :=
  ⟨⟨by decide, by decide, by decide⟩,
    email_first_match _ [⟨"nick", some "b"⟩] [⟨"email", some "second@x"⟩]
      ⟨"email", some "first@x"⟩ rfl rfl (by decide)⟩

/-! ## Trace projection lemmas -/

theorem requestsOf_cons_fetch (r : ListUsersRequest) (t : List Event) :
    requestsOf (Event.fetchPage r :: t) = r :: requestsOf t := rfl

theorem requestsOf_cons_header (t : List Event) :
    requestsOf (Event.writeHeader :: t) = requestsOf t := rfl

theorem requestsOf_append (a b : List Event) :
    requestsOf (a ++ b) = requestsOf a ++ requestsOf b :=
  List.filterMap_append a b _

theorem rowsOf_cons_fetch (r : ListUsersRequest) (t : List Event) :
    rowsOf (Event.fetchPage r :: t) = rowsOf t := rfl

theorem rowsOf_cons_header (t : List Event) :
    rowsOf (Event.writeHeader :: t) = rowsOf t := rfl

theorem rowsOf_append (a b : List Event) :
    rowsOf (a ++ b) = rowsOf a ++ rowsOf b :=
  List.filterMap_append a b _

theorem flushesOf_cons_fetch (r : ListUsersRequest) (t : List Event) :
    flushesOf (Event.fetchPage r :: t) = flushesOf t := rfl

theorem flushesOf_cons_header (t : List Event) :
    flushesOf (Event.writeHeader :: t) = flushesOf t := rfl

theorem flushesOf_append (a b : List Event) :
    flushesOf (a ++ b) = flushesOf a ++ flushesOf b :=
  List.filterMap_append a b _

theorem requestsOf_rowEvents (ls : List String) :
    requestsOf (ls.map Event.writeRow) = [] := by
  simp [requestsOf, List.filterMap_map]

theorem rowsOf_rowEvents (ls : List String) :
    rowsOf (ls.map Event.writeRow) = ls := by
  induction ls with
  | nil => rfl
  | cons l rest ih => simpa [rowsOf] using ih

theorem flushesOf_rowEvents (ls : List String) :
    flushesOf (ls.map Event.writeRow) = [] := by
  simp [flushesOf, List.filterMap_map]

/-! ## Claim C4 -/

/-- C4: with a configured deadline that elapses before the sync completes,
`run_sync` reports the timeout failure carrying the configured duration; the
timeout kind is distinct from every propagated `sync_users_to_csv` failure
kind (configuration, remote-call and write failures alike); and with no
deadline configured the run never reports a timeout. -/
theorem run_sync_timeout_kind :
    (∀ (secs : Nat) (r : Except SyncError Unit),
      run_sync (some secs) true r = .error (.timedOut secs)) ∧
    (∀ secs : Nat, isTimeout (RunError.timedOut secs) = true) ∧
    (∀ e : SyncError, isTimeout (RunError.sync e) = false) ∧
    (∀ (b : Bool) (r : Except SyncError Unit),
      reportsTimeout (run_sync none b r) = false) := by
  refine ⟨fun secs r => rfl, fun secs => rfl, fun e => rfl, ?_⟩
  intro b r
  cases r <;> rfl

/-! ## Structure of the loop trace -/

/-- Every request the loop body builds carries the pool id and `limit(60)`. -/
theorem syncLoop_requests {σ : Type} (W : Writer σ) (pid : String) :
    ∀ (fuel : Nat) (client : Nat → Except String Page) (token : Option String)
      (total : Nat) (s : σ),
    ∀ r ∈ requestsOf (syncLoop W pid client token total s fuel).1,
      r.userPoolId = pid ∧ r.limit = 60 := by
  intro fuel
  induction fuel with
  | zero => intro client token total s r hr; simp [syncLoop, requestsOf] at hr
  | succ f ih =>
    intro client token total s r hr
    simp only [syncLoop] at hr
    split at hr
    · simp [requestsOf] at hr
      exact hr ▸ ⟨rfl, rfl⟩
    · rename_i page _
      split at hr
      · rename_i evs e hwu
        have hevs : requestsOf evs = [] := by
          have h0 := requestsOf_writeUsers W page.users s total
          rw [hwu] at h0
          exact h0
        simp only [requestsOf_cons_fetch] at hr
        rw [hevs] at hr
        simp at hr
        exact hr ▸ ⟨rfl, rfl⟩
      · rename_i evs s' total' hwu
        have hevs : requestsOf evs = [] := by
          have h0 := requestsOf_writeUsers W page.users s total
          rw [hwu] at h0
          exact h0
        split at hr
        · simp only [requestsOf_cons_fetch] at hr
          rw [hevs] at hr
          simp at hr
          exact hr ▸ ⟨rfl, rfl⟩
        · simp only [requestsOf_cons_fetch, requestsOf_append] at hr
          rw [hevs] at hr
          simp only [List.singleton_append, List.mem_cons] at hr
          rcases hr with hr | hr
          · exact hr ▸ ⟨rfl, rfl⟩
          · exact ih _ _ _ _ r hr

/-- The loop trace contains only page-request and row-write events. -/
theorem syncLoop_events {σ : Type} (W : Writer σ) (pid : String) :
    ∀ (fuel : Nat) (client : Nat → Except String Page) (token : Option String)
      (total : Nat) (s : σ),
    ∀ e ∈ (syncLoop W pid client token total s fuel).1,
      (∃ r, e = Event.fetchPage r) ∨ (∃ l, e = Event.writeRow l) := by
  intro fuel
  induction fuel with
  | zero => intro client token total s e he; simp [syncLoop] at he
  | succ f ih =>
    intro client token total s e he
    simp only [syncLoop] at he
    split at he
    · simp at he
      exact Or.inl ⟨_, he⟩
    · rename_i page _
      split at he
      · rename_i evs err hwu
        have hevs : ∀ x ∈ evs, ∃ l, x = Event.writeRow l := by
          intro x hx
          refine writeUsers_events W page.users s total x ?_
          rw [hwu]
          exact hx
        simp only [List.mem_cons] at he
        rcases he with he | he
        · exact Or.inl ⟨_, he⟩
        · exact Or.inr (hevs e he)
      · rename_i evs s' total' hwu
        have hevs : ∀ x ∈ evs, ∃ l, x = Event.writeRow l := by
          intro x hx
          refine writeUsers_events W page.users s total x ?_
          rw [hwu]
          exact hx
        split at he
        · simp only [List.mem_cons] at he
          rcases he with he | he
          · exact Or.inl ⟨_, he⟩
          · exact Or.inr (hevs e he)
        · simp only [List.mem_append, List.mem_cons] at he
          rcases he with (he | he) | he
          · exact Or.inl ⟨_, he⟩
          · exact Or.inr (hevs e he)
          · exact ih _ _ _ _ e he

/-- With at least one unit of fuel the loop trace starts with the first page
request, built from the held token. -/
theorem syncLoop_head {σ : Type} (W : Writer σ) (pid : String) (f : Nat)
    (client : Nat → Except String Page) (token : Option String)
    (total : Nat) (s : σ) :
    ∃ rest, (syncLoop W pid client token total s (f + 1)).1 =
      Event.fetchPage ⟨pid, 60, token⟩ :: rest := by
  simp only [syncLoop]
  split
  · exact ⟨[], rfl⟩
  · split
    · exact ⟨_, rfl⟩
    · split
      · exact ⟨_, rfl⟩
      · exact ⟨_, rfl⟩

/-! ## Claim C9 -/

/-- C9: every page request issued during an export — the first and every
subsequent one — carries the configured pool identifier and the fixed
maximum page size of 60 records. -/
theorem every_request_pool_limit {σ : Type} (W : Writer σ) (s0 : σ)
    (client : Nat → Except String Page) (pid : String) (fuel : Nat) :
    ∀ r ∈ requestsOf (sync_users_to_csv W s0 client pid fuel).1,
      r.userPoolId = pid ∧ r.limit = 60 := by
  intro r hr
  simp only [sync_users_to_csv] at hr
  split at hr
  · simp [requestsOf] at hr
  · rename_i s1 _
    split at hr
    · simp only [requestsOf_cons_header] at hr
      exact syncLoop_requests W pid fuel client none 0 s1 r hr
    · simp only [requestsOf_cons_header] at hr
      exact syncLoop_requests W pid fuel client none 0 s1 r hr
    · split at hr
      · simp only [requestsOf_cons_header] at hr
        exact syncLoop_requests W pid fuel client none 0 s1 r hr
      · simp only [requestsOf_append, requestsOf_cons_header] at hr
        have hfl : requestsOf [Event.flush] = [] := rfl
        rw [hfl, List.append_nil] at hr
        exact syncLoop_requests W pid fuel client none 0 s1 r hr

/-- Witness for C9: the first request of a small concrete export carries the
pool id and the limit 60. -/
theorem every_request_pool_limit_witness :
    ((⟨"pool", 60, none⟩ : ListUsersRequest) ∈
      requestsOf (sync_users_to_csv StringBuffer "" (clientOfPool [sampleUser]) "pool" 2).1) ∧
    ((⟨"pool", 60, none⟩ : ListUsersRequest).userPoolId = "pool" ∧
      (⟨"pool", 60, none⟩ : ListUsersRequest).limit = 60) :=
  ⟨by decide,
    every_request_pool_limit StringBuffer "" (clientOfPool [sampleUser]) "pool" 2
      ⟨"pool", 60, none⟩ (by decide)⟩

/-! ## Claim C8 -/

/-- C8: on every successful run the trace is the header write, then a block
of page-request and row-write events that starts with the first page request
(so the header is written before any data row and before the first page
request), and the single flush at the very end, after the pagination loop
has terminated. -/
theorem run_event_order {σ : Type} (W : Writer σ) (s0 : σ)
    (client : Nat → Except String Page) (pid : String) (fuel : Nat)
    (x : σ × Nat)
    (h : (sync_users_to_csv W s0 client pid fuel).2 = some (.ok x)) :
    ∃ t, (sync_users_to_csv W s0 client pid fuel).1 =
        (Event.writeHeader :: t) ++ [Event.flush] ∧
      (∀ e ∈ t, (∃ r, e = Event.fetchPage r) ∨ (∃ l, e = Event.writeRow l)) ∧
      (∃ req rest, t = Event.fetchPage req :: rest) := by
  cases hw : W.writeAll s0 "username,email\n" with
  | error e => simp [sync_users_to_csv, hw] at h
  | ok s1 =>
    cases fuel with
    | zero => simp [sync_users_to_csv, hw, syncLoop] at h
    | succ f =>
      obtain ⟨rest0, hhead⟩ := syncLoop_head W pid f client none 0 s1
      cases hres : (syncLoop W pid client none 0 s1 (f + 1)).2 with
      | none => simp [sync_users_to_csv, hw, hres] at h
      | some res =>
        cases res with
        | error e => simp [sync_users_to_csv, hw, hres] at h
        | ok st =>
          obtain ⟨s2, total⟩ := st
          cases hf : W.flush s2 with
          | error e => simp [sync_users_to_csv, hw, hres, hf] at h
          | ok s3 =>
            refine ⟨(syncLoop W pid client none 0 s1 (f + 1)).1, ?_, ?_, ?_⟩
            · simp only [sync_users_to_csv, hw, hres, hf]
            · exact syncLoop_events W pid (f + 1) client none 0 s1
            · exact ⟨⟨pid, 60, none⟩, rest0, hhead⟩

/-- Witness for C8 at a small successful export. -/
theorem run_event_order_witness :
    ((sync_users_to_csv StringBuffer "" (clientOfPool [sampleUser]) "pool" 2).2 =
      some (.ok (outOf [sampleUser], 1))) ∧
    (∃ t, (sync_users_to_csv StringBuffer "" (clientOfPool [sampleUser]) "pool" 2).1 =
        (Event.writeHeader :: t) ++ [Event.flush] ∧
      (∀ e ∈ t, (∃ r, e = Event.fetchPage r) ∨ (∃ l, e = Event.writeRow l)) ∧
      (∃ req rest, t = Event.fetchPage req :: rest)) :=
  ⟨rfl,
    run_event_order StringBuffer "" (clientOfPool [sampleUser]) "pool" 2
      (outOf [sampleUser], 1) rfl⟩

/-! ## Claim C5 -/

theorem requestsOf_userRows (us : List UserType) :
    requestsOf (us.map (fun u => Event.writeRow (rowLine u))) = [] := by
  rw [show (fun u => Event.writeRow (rowLine u)) = Event.writeRow ∘ rowLine from rfl,
    ← List.map_map]
  exact requestsOf_rowEvents _

theorem rowsOf_userRows (us : List UserType) :
    rowsOf (us.map (fun u => Event.writeRow (rowLine u))) = us.map rowLine := by
  rw [show (fun u => Event.writeRow (rowLine u)) = Event.writeRow ∘ rowLine from rfl,
    ← List.map_map]
  exact rowsOf_rowEvents _

theorem flushesOf_userRows (us : List UserType) :
    flushesOf (us.map (fun u => Event.writeRow (rowLine u))) = [] := by
  rw [show (fun u => Event.writeRow (rowLine u)) = Event.writeRow ∘ rowLine from rfl,
    ← List.map_map]
  exact flushesOf_rowEvents _

/-- When the (j+1)-st page request fails and every earlier response succeeds
with a present cursor, the loop stops at the failing request with the
remote-call error wrapping the cause: exactly j+1 requests were issued, the
rows written are exactly those of the j pages served before the failure, and
no flush happens inside the loop. -/
theorem syncLoop_remote_failure {σ : Type} (W : Writer σ) (content : σ → String)
    (A : AppendWriter W content) (pid msg : String) :
    ∀ (j fuel : Nat) (client : Nat → Except String Page) (p : Nat → Page)
      (token : Option String) (total : Nat) (s : σ),
    (∀ i, i < j → client i = .ok (p i) ∧ (p i).paginationToken.isSome = true) →
    client j = .error msg → j + 1 ≤ fuel →
    (syncLoop W pid client token total s fuel).2 =
      some (.error (.listUsers msg)) ∧
    (requestsOf (syncLoop W pid client token total s fuel).1).length = j + 1 ∧
    rowsOf (syncLoop W pid client token total s fuel).1 =
      (((List.range j).map (fun i => (p i).users)).flatten).map rowLine ∧
    flushesOf (syncLoop W pid client token total s fuel).1 = [] := by
  intro j
  induction j with
  | zero =>
    intro fuel client p token total s _hok herr hfuel
    cases fuel with
    | zero => omega
    | succ f =>
      simp [syncLoop, herr, requestsOf, rowsOf, flushesOf]
  | succ n ih =>
    intro fuel client p token total s hok herr hfuel
    cases fuel with
    | zero => omega
    | succ f =>
      have hc0 : client 0 = .ok (p 0) := (hok 0 (Nat.succ_pos n)).1
      obtain ⟨t0, ht0⟩ :=
        Option.isSome_iff_exists.mp (hok 0 (Nat.succ_pos n)).2
      obtain ⟨s1, hwu, _hc⟩ := writeUsers_append W content A (p 0).users s total
      obtain ⟨ih1, ih2, ih3, ih4⟩ :=
        ih f (fun i => client (i + 1)) (fun i => p (i + 1)) (some t0)
          (total + (p 0).users.length) s1
          (fun i hi => hok (i + 1) (by omega)) herr (by omega)
      simp only [syncLoop, hc0, hwu, ht0]
      refine ⟨ih1, ?_, ?_, ?_⟩
      · simp only [requestsOf_append, requestsOf_cons_fetch, requestsOf_userRows,
          List.length_append, List.length_cons, List.length_nil, ih2]
        omega
      · simp only [rowsOf_append, rowsOf_cons_fetch, rowsOf_userRows, ih3,
          List.range_succ_eq_map, List.map_cons, List.map_map,
          List.flatten_cons, List.map_append]
        rfl
      · simp only [flushesOf_append, flushesOf_cons_fetch, flushesOf_userRows, ih4]
        rfl

/-- C5: when a page request fails, the export aborts at once with the
remote-call failure wrapping the cause — no further page request is issued,
the only rows written are those of the pages served before the failure, and
no flush is performed. -/
theorem remote_failure_aborts (pid msg s0 : String)
    (client : Nat → Except String Page) (p : Nat → Page) (j fuel : Nat)
    (hok : ∀ i, i < j → client i = .ok (p i) ∧ (p i).paginationToken.isSome = true)
    (herr : client j = .error msg) (hfuel : j + 1 ≤ fuel) :
    (sync_users_to_csv StringBuffer s0 client pid fuel).2 =
      some (.error (.listUsers msg)) ∧
    (requestsOf (sync_users_to_csv StringBuffer s0 client pid fuel).1).length = j + 1 ∧
    rowsOf (sync_users_to_csv StringBuffer s0 client pid fuel).1 =
      (((List.range j).map (fun i => (p i).users)).flatten).map rowLine ∧
    flushesOf (sync_users_to_csv StringBuffer s0 client pid fuel).1 = [] := by
  obtain ⟨h1, h2, h3, h4⟩ :=
    syncLoop_remote_failure StringBuffer id stringBuffer_append pid msg j fuel
      client p none 0 (s0 ++ "username,email\n") hok herr hfuel
  have hW : StringBuffer.writeAll s0 "username,email\n" =
      .ok (s0 ++ "username,email\n") := rfl
  simp only [sync_users_to_csv, hW, h1]
  exact ⟨trivial,
    by simp only [requestsOf_cons_header]; exact h2,
    by simp only [rowsOf_cons_header]; exact h3,
    by simp only [flushesOf_cons_header]; exact h4⟩

/-- Witness for C5: the second page request of `failClient` fails; the
export aborts with the remote-call failure after exactly 2 requests, having
written only page 1's single row, with no flush. -/
theorem remote_failure_aborts_witness :
    ((∀ i, i < 1 → failClient i = .ok (failPages i) ∧
        (failPages i).paginationToken.isSome = true) ∧
      failClient 1 = .error "boom" ∧ 1 + 1 ≤ 2) ∧
    ((sync_users_to_csv StringBuffer "" failClient "pool" 2).2 =
        some (.error (.listUsers "boom")) ∧
      (requestsOf (sync_users_to_csv StringBuffer "" failClient "pool" 2).1).length =
        1 + 1 ∧
      rowsOf (sync_users_to_csv StringBuffer "" failClient "pool" 2).1 =
        (((List.range 1).map (fun i => (failPages i).users)).flatten).map rowLine ∧
      flushesOf (sync_users_to_csv StringBuffer "" failClient "pool" 2).1 = []) :=
  ⟨⟨by intro i hi; rw [Nat.lt_one_iff] at hi; subst hi; exact ⟨rfl, rfl⟩,
      rfl, by decide⟩,
    remote_failure_aborts "pool" "boom" "" failClient failPages 1 2
      (by intro i hi; rw [Nat.lt_one_iff] at hi; subst hi; exact ⟨rfl, rfl⟩)
      rfl (by decide)⟩

/-! ## Claim C6 -/

/-- When the (n+1)-st response is the first to carry an absent cursor, the
loop terminates at exactly that request (n+1 requests in total). -/
theorem syncLoop_absent_cursor {σ : Type} (W : Writer σ) (content : σ → String)
    (A : AppendWriter W content) (pid : String) :
    ∀ (n fuel : Nat) (client : Nat → Except String Page) (p : Nat → Page)
      (token : Option String) (total : Nat) (s : σ),
    (∀ i, i < n → client i = .ok (p i) ∧ (p i).paginationToken.isSome = true) →
    client n = .ok (p n) → (p n).paginationToken = none → n + 1 ≤ fuel →
    (∃ x, (syncLoop W pid client token total s fuel).2 = some (.ok x)) ∧
    (requestsOf (syncLoop W pid client token total s fuel).1).length = n + 1 := by
  intro n
  induction n with
  | zero =>
    intro fuel client p token total s _hok hn habs hfuel
    cases fuel with
    | zero => omega
    | succ f =>
      obtain ⟨s1, hwu, _⟩ := writeUsers_append W content A (p 0).users s total
      simp only [syncLoop, hn, hwu, habs]
      exact ⟨⟨(s1, total + (p 0).users.length), rfl⟩,
        by simp only [requestsOf_cons_fetch, requestsOf_userRows,
          List.length_cons, List.length_nil]⟩
  | succ m ih =>
    intro fuel client p token total s hok hn habs hfuel
    cases fuel with
    | zero => omega
    | succ f =>
      have hc0 : client 0 = .ok (p 0) := (hok 0 (Nat.succ_pos m)).1
      obtain ⟨t0, ht0⟩ :=
        Option.isSome_iff_exists.mp (hok 0 (Nat.succ_pos m)).2
      obtain ⟨s1, hwu, _⟩ := writeUsers_append W content A (p 0).users s total
      obtain ⟨⟨x, ihx⟩, ihlen⟩ :=
        ih f (fun i => client (i + 1)) (fun i => p (i + 1)) (some t0)
          (total + (p 0).users.length) s1
          (fun i hi => hok (i + 1) (by omega)) hn habs (by omega)
      simp only [syncLoop, hc0, hwu, ht0]
      refine ⟨⟨x, ihx⟩, ?_⟩
      simp only [requestsOf_append, requestsOf_cons_fetch, requestsOf_userRows,
        List.length_append, List.length_cons, List.length_nil, ihlen]
      omega

/-- C6: when some response carries an absent next-cursor (position n,
0-based) and every earlier response succeeds with a cursor present, the
export's pagination loop terminates, exiting exactly at that response after
n+1 requests. -/
theorem loop_terminates_on_absent_cursor (pid s0 : String)
    (client : Nat → Except String Page) (p : Nat → Page) (n fuel : Nat)
    (hok : ∀ i, i < n → client i = .ok (p i) ∧ (p i).paginationToken.isSome = true)
    (hn : client n = .ok (p n)) (habs : (p n).paginationToken = none)
    (hfuel : n + 1 ≤ fuel) :
    (∃ x, (sync_users_to_csv StringBuffer s0 client pid fuel).2 = some (.ok x)) ∧
    (requestsOf (sync_users_to_csv StringBuffer s0 client pid fuel).1).length =
      n + 1 := by
  obtain ⟨⟨x, hx⟩, hlen⟩ :=
    syncLoop_absent_cursor StringBuffer id stringBuffer_append pid n fuel client
      p none 0 (s0 ++ "username,email\n") hok hn habs hfuel
  have hW : StringBuffer.writeAll s0 "username,email\n" =
      .ok (s0 ++ "username,email\n") := rfl
  rcases x with ⟨s2, total⟩
  have hF : StringBuffer.flush s2 = .ok s2 := rfl
  have hfl : requestsOf [Event.flush] = [] := rfl
  constructor
  · exact ⟨(s2, total), by simp only [sync_users_to_csv, hW, hx, hF]⟩
  · simp only [sync_users_to_csv, hW, hx, hF, requestsOf_append,
      requestsOf_cons_header, hfl, List.append_nil]
    exact hlen

/-- Witness for C6: `twoPageClient` returns its first absent cursor on the
second response; the loop terminates after exactly 2 requests. -/
theorem loop_terminates_on_absent_cursor_witness :
    ((∀ i, i < 1 → twoPageClient i = .ok (twoPages i) ∧
        (twoPages i).paginationToken.isSome = true) ∧
      twoPageClient 1 = .ok (twoPages 1) ∧
      (twoPages 1).paginationToken = none ∧ 1 + 1 ≤ 2) ∧
    ((∃ x, (sync_users_to_csv StringBuffer "" twoPageClient "pool" 2).2 =
        some (.ok x)) ∧
      (requestsOf (sync_users_to_csv StringBuffer "" twoPageClient "pool" 2).1).length =
        1 + 1) :=
  ⟨⟨by intro i hi; rw [Nat.lt_one_iff] at hi; subst hi; exact ⟨rfl, rfl⟩,
      rfl, rfl, by decide⟩,
    loop_terminates_on_absent_cursor "pool" "" twoPageClient twoPages 1 2
      (by intro i hi; rw [Nat.lt_one_iff] at hi; subst hi; exact ⟨rfl, rfl⟩)
      rfl rfl (by decide)⟩

/-! ## Claim C7 -/

theorem outOf_len_pos (pool : List UserType) : 0 < (outOf pool).length := by
  rw [outOf, String.length_append]
  have h15 : ("username,email\n" : String).length = 15 := rfl
  omega

/-- One run into a file: the run succeeds and the file at `path` holds
exactly the run's output, whatever the file held before. -/
theorem runSyncToFile_content (pid path : String) (pool : List UserType)
    (fs : FS) (fuel : Nat) (hfuel : pool.length + 1 ≤ fuel) :
    ∃ fs', runSyncToFile fs path (clientOfPool pool) pid fuel =
        some (.ok fs') ∧
      fs'.lookup path = some (outOf pool) := by
  obtain ⟨st, hres, hcontent⟩ :=
    sync_pool (FileWriter path) (fun g => (g.lookup path).getD "")
      (fileWriter_append path) pid pool (fsCreate fs path) fuel hfuel
  have hinit : ((fsCreate fs path).lookup path) = some "" := by
    simp [fsCreate, List.lookup]
  rw [hinit] at hcontent
  have hout : (st.lookup path).getD "" = outOf pool := by
    rw [hcontent]
    rfl
  refine ⟨st, ?_, ?_⟩
  · simp [runSyncToFile, hres, Except.map]
  · cases hl : st.lookup path with
    | none =>
      rw [hl] at hout
      have := outOf_len_pos pool
      rw [← hout] at this
      simp at this
    | some c =>
      rw [hl] at hout
      simp at hout
      rw [hout]

/-- C7: with a destination path configured the export truncates-or-creates
the file at that path, so running the same export twice against the same
path overwrites: after the second run the file holds exactly the second
run's output, not the concatenation of the two runs' outputs. -/
theorem sync_twice_overwrites (pid path : String) (pool : List UserType)
    (fs : FS) (fuel : Nat) (hfuel : pool.length + 1 ≤ fuel) :
    ∃ fs1 fs2,
      runSyncToFile fs path (clientOfPool pool) pid fuel = some (.ok fs1) ∧
      runSyncToFile fs1 path (clientOfPool pool) pid fuel = some (.ok fs2) ∧
      fs1.lookup path = some (outOf pool) ∧
      fs2.lookup path = some (outOf pool) ∧
      fs2.lookup path ≠ some (outOf pool ++ outOf pool) := by
  obtain ⟨fs1, hrun1, hlook1⟩ := runSyncToFile_content pid path pool fs fuel hfuel
  obtain ⟨fs2, hrun2, hlook2⟩ := runSyncToFile_content pid path pool fs1 fuel hfuel
  refine ⟨fs1, fs2, hrun1, hrun2, hlook1, hlook2, ?_⟩
  rw [hlook2]
  intro hcontra
  have heq : outOf pool = outOf pool ++ outOf pool := by
    exact Option.some_injective _ hcontra
  have hlen := congrArg String.length heq
  rw [String.length_append] at hlen
  have := outOf_len_pos pool
  omega

/-- Witness for C7: two consecutive runs over a one-user pool into the same
path leave exactly one copy of the output in the file. -/
theorem sync_twice_overwrites_witness :
    (([sampleUser] : List UserType).length + 1 ≤ 2) ∧
    (∃ fs1 fs2,
      runSyncToFile [] "out.csv" (clientOfPool [sampleUser]) "pool" 2 =
        some (.ok fs1) ∧
      runSyncToFile fs1 "out.csv" (clientOfPool [sampleUser]) "pool" 2 =
        some (.ok fs2) ∧
      fs1.lookup "out.csv" = some (outOf [sampleUser]) ∧
      fs2.lookup "out.csv" = some (outOf [sampleUser]) ∧
      fs2.lookup "out.csv" ≠ some (outOf [sampleUser] ++ outOf [sampleUser])) :=
  ⟨by decide,
    sync_twice_overwrites "pool" "out.csv" [sampleUser] [] 2 (by decide)⟩

end CogOps
